import Mathlib

/-!
Shallow embedding of the position-quality pipeline of the live-tracker
repository (src/app/components/RunnerTracker.tsx).

Numbers are modelled as rationals (JavaScript numbers, with the NaN/Infinity
cases unrepresentable; the finiteness checks of the source are therefore
identically true here).  Optional sensor readings (speed, heading) are
`Option` values; the JavaScript idioms `x || 0` and truthiness tests on
optional numeric fields are made explicit (`orZero`, `truthy`).

The transcendental geometry (geolib's great-circle `getDistance`, and
`Math.cos`/`Math.sin` used by dead reckoning) is abstracted into a `GeoModel`
parameter: every pipeline function takes the geometric primitives as an
argument, and theorems quantify over them; concrete witnesses instantiate
them with an explicit computable stand-in.
-/

namespace LiveTracker

/-- The coordinate fields of one geolocation fix, as read from
`position.coords`: latitude, longitude, accuracy (always delivered),
and the optional speed and heading readings. -/
structure Coords where
  latitude : ℚ
  longitude : ℚ
  accuracy : ℚ
  speed : Option ℚ
  heading : Option ℚ
deriving DecidableEq

/-- One entry of `positionBuffer`: the raw fix together with the
`Date.now()` value at which it was processed. -/
structure BufferEntry where
  pos : Coords
  time : ℚ
deriving DecidableEq

/-- The mutable fields of the `PositionProcessor` class.  The buffer is kept
oldest-first, exactly like the JavaScript array. -/
structure FilterState where
  lastValidPosition : Option Coords
  lastUpdateTime : ℚ
  lastSpeed : ℚ
  positionBuffer : List BufferEntry
deriving DecidableEq

/-- The initial field values of a fresh `PositionProcessor`. -/
def initState : FilterState := ⟨none, 0, 0, []⟩

/-- The geometric primitives the pipeline consumes: geolib's `getDistance`
(applied to two latitude/longitude pairs) and the `Math.cos`/`Math.sin`
functions used by dead reckoning. -/
structure GeoModel where
  dist : ℚ → ℚ → ℚ → ℚ → ℚ
  rcos : ℚ → ℚ
  rsin : ℚ → ℚ

/-- `PositionProcessor.MIN_ACCURACY` (meters). -/
def MIN_ACCURACY : ℚ := 10

/-- `PositionProcessor.MAX_SPEED` (m/s). -/
def MAX_SPEED : ℚ := 20

/-- `PositionProcessor.MIN_DISTANCE` (meters). -/
def MIN_DISTANCE : ℚ := 1/2

/-- `PositionProcessor.MAX_ACCELERATION`. -/
def MAX_ACCELERATION : ℚ := 10

/-- `PositionProcessor.SMOOTHING_FACTOR`. -/
def SMOOTHING_FACTOR : ℚ := 3/10

/-- `PositionProcessor.bufferSize`. -/
def bufferSize : Nat := 5

/-- JavaScript `x || 0` on an optional numeric reading: an absent reading
(and a zero one) gives `0`. -/
def orZero (x : Option ℚ) : ℚ := x.getD 0

/-- JavaScript truthiness of an optional numeric field: present and nonzero.
(`NaN`, the other falsy number, is not representable in `ℚ`.) -/
def truthy (x : Option ℚ) : Prop := x ≠ none ∧ x ≠ some 0

instance (x : Option ℚ) : Decidable (truthy x) := by
  unfold truthy; infer_instance

/-- `PositionProcessor.blendPositions`. -/
def blendPositions (actual expected : ℚ) : ℚ :=
  actual * (1 - SMOOTHING_FACTOR) + expected * SMOOTHING_FACTOR

/-- `PositionProcessor.deadReckoning`: if there is no last valid position the
current fix is returned unchanged; otherwise the expected position is dead
reckoned from the last valid position, last speed and last heading (the raw
`heading || 0` value fed to cos/sin), and the current coordinates are blended
with it. -/
def deadReckoning (g : GeoModel) (st : FilterState) (currentPos : Coords)
    (timeDelta : ℚ) : Coords :=
  match st.lastValidPosition with
  | none => currentPos
  | some lastCoords =>
    let expectedLat := lastCoords.latitude +
      st.lastSpeed * g.rcos (orZero lastCoords.heading) * timeDelta
    let expectedLng := lastCoords.longitude +
      st.lastSpeed * g.rsin (orZero lastCoords.heading) * timeDelta
    { currentPos with
      latitude := blendPositions currentPos.latitude expectedLat
      longitude := blendPositions currentPos.longitude expectedLng }

/-- `PositionProcessor.analyzeSignalQuality`, in the sequential shape of the
source: start from 1.0, attenuate for bad accuracy, for an unrealistic speed
change, and for an unrealistic heading change.  The heading branch guards on
JavaScript truthiness of `lastValidPosition?.coords.heading`. -/
def analyzeSignalQuality (st : FilterState) (position : Coords) : ℚ :=
  let q0 : ℚ := 1
  let q1 := if MIN_ACCURACY < position.accuracy
    then q0 * (MIN_ACCURACY / position.accuracy) else q0
  let q2 := if 0 < st.lastSpeed ∧
      MAX_ACCELERATION < |orZero position.speed - st.lastSpeed|
    then q1 * (1/2) else q1
  match st.lastValidPosition with
  | some lp =>
    if truthy lp.heading ∧ 45 < |orZero position.heading - orZero lp.heading|
      then q2 * (7/10) else q2
  | none => q2

/-- The accuracy attenuation factor of `analyzeSignalQuality` in isolation. -/
def accuracyFactor (position : Coords) : ℚ :=
  if MIN_ACCURACY < position.accuracy then MIN_ACCURACY / position.accuracy else 1

/-- The speed-change attenuation factor of `analyzeSignalQuality` in
isolation. -/
def speedFactor (st : FilterState) (position : Coords) : ℚ :=
  if 0 < st.lastSpeed ∧ MAX_ACCELERATION < |orZero position.speed - st.lastSpeed|
    then 1/2 else 1

/-- The heading-change attenuation factor of `analyzeSignalQuality` in
isolation. -/
def headingFactor (st : FilterState) (position : Coords) : ℚ :=
  match st.lastValidPosition with
  | some lp =>
    if truthy lp.heading ∧ 45 < |orZero position.heading - orZero lp.heading|
      then 7/10 else 1
  | none => 1

/-- `PositionProcessor.predictNextPosition`: with fewer than two buffered
fixes there is no prediction; otherwise first-difference extrapolation from
the two most recent buffered fixes, all other fields copied from the most
recent one. -/
def predictNextPosition (st : FilterState) : Option Coords :=
  match st.positionBuffer.reverse with
  | lastPos :: prevPos :: _ =>
    let latDelta := lastPos.pos.latitude - prevPos.pos.latitude
    let lngDelta := lastPos.pos.longitude - prevPos.pos.longitude
    some { lastPos.pos with
           latitude := lastPos.pos.latitude + latDelta
           longitude := lastPos.pos.longitude + lngDelta }
  | _ => none

/-- The buffer update of `processPosition`: push the new entry, and when the
length exceeds `bufferSize` shift the oldest entry off the front. -/
def pushBuffer (buf : List BufferEntry) (e : BufferEntry) : List BufferEntry :=
  let b := buf ++ [e]
  if bufferSize < b.length then b.drop 1 else b

/-- The dead-reckoning substitution step of `processPosition` (lines 163-169
of the source): when the quality score is below 0.3 and a prediction exists,
the fix is replaced by the dead-reckoned prediction. -/
def correctedPosition (g : GeoModel) (st : FilterState) (position : Coords)
    (timeDelta : ℚ) : Coords :=
  if analyzeSignalQuality st position < 3/10 then
    match predictNextPosition st with
    | some predictedPos => deadReckoning g st predictedPos timeDelta
    | none => position
  else position

/-- `PositionProcessor.isValidPosition`: the plausibility gate.  Rejects on
the accuracy ceiling, on a truthy over-limit speed, and — when a last valid
position exists — on sub-minimal displacement or an over-limit speed change
scaled by the elapsed time. -/
def isValidPosition (g : GeoModel) (st : FilterState) (position : Coords)
    (timeDelta : ℚ) : Bool :=
  if MIN_ACCURACY < position.accuracy then false
  else if truthy position.speed ∧ MAX_SPEED < orZero position.speed then false
  else
    match st.lastValidPosition with
    | some lp =>
      let distance := g.dist lp.latitude lp.longitude
        position.latitude position.longitude
      if distance < MIN_DISTANCE then false
      else if MAX_ACCELERATION * timeDelta < |orZero position.speed - st.lastSpeed|
        then false
      else true
    | none => true

/-- The time delta computed at the top of `processPosition`: 0 while
`lastUpdateTime` is falsy, otherwise the elapsed milliseconds divided by
1000. -/
def timeDeltaOf (st : FilterState) (currentTime : ℚ) : ℚ :=
  if st.lastUpdateTime ≠ 0 then (currentTime - st.lastUpdateTime) / 1000 else 0

/-- The state right after `processPosition` records the raw fix in the
buffer (lines 154-158 of the source). -/
def pushState (st : FilterState) (position : Coords) (currentTime : ℚ) :
    FilterState :=
  { st with positionBuffer := pushBuffer st.positionBuffer ⟨position, currentTime⟩ }

/-- `PositionProcessor.processPosition`, with the `Date.now()` reading passed
in as `currentTime`: compute the time delta, push the raw fix onto the
buffer, optionally substitute the dead-reckoned prediction, gate the result,
and on acceptance update `lastValidPosition`, `lastUpdateTime` and
`lastSpeed`.  Returns the new state with the accepted fix, or the new state
with `none` on rejection. -/
def processPosition (g : GeoModel) (st : FilterState) (position : Coords)
    (currentTime : ℚ) : FilterState × Option Coords :=
  let timeDelta := timeDeltaOf st currentTime
  let st1 := pushState st position currentTime
  let corrected := correctedPosition g st1 position timeDelta
  if isValidPosition g st1 corrected timeDelta then
    ({ st1 with
        lastValidPosition := some corrected
        lastUpdateTime := currentTime
        lastSpeed := orZero corrected.speed }, some corrected)
  else (st1, none)

/-- The `isValidCoordinate` helper of the component.  The `isNaN`/`isFinite`
conjuncts of the source are identically true over `ℚ`. -/
def isValidCoordinate (lat lng : ℚ) : Bool :=
  decide (-90 ≤ lat ∧ lat ≤ 90 ∧ -180 ≤ lng ∧ lng ≤ 180)

/-- The component state the claims are about: the polyline of accepted points
and the exported cumulative distance. -/
structure UiState where
  positions : List (ℚ × ℚ)
  distance : ℚ
deriving DecidableEq

/-- The `watchPosition` success handler of `startTracking` (lines 391-416 of
the source): run the processor; on rejection nothing changes; on acceptance
append the accepted point to the polyline.  The handler computes the distance
between the previous last point and the new point but discards the result:
the `distance` state is never written. -/
def watchHandler (g : GeoModel) (s : FilterState × UiState) (pos : Coords)
    (t : ℚ) : FilterState × UiState :=
  let r := processPosition g s.1 pos t
  match r.2 with
  | none => (r.1, s.2)
  | some p =>
    let newPositions :=
      match s.2.positions.getLast? with
      | some last =>
        let _ := g.dist last.1 last.2 p.latitude p.longitude
        s.2.positions ++ [(p.latitude, p.longitude)]
      | none => [(p.latitude, p.longitude)]
    (r.1, { positions := newPositions, distance := s.2.distance })

/-- The component state right after `startTracking` accepts the initial fix:
the polyline holds that single point and the distance is reset to 0. -/
def startUiState (p0 : ℚ × ℚ) : UiState := { positions := [p0], distance := 0 }

/-- A whole watch session: fold the success handler over a list of fixes with
their arrival times. -/
def runWatch (g : GeoModel) (s : FilterState × UiState)
    (events : List (Coords × ℚ)) : FilterState × UiState :=
  events.foldl (fun acc e => watchHandler g acc e.1 e.2) s

/-- The processor state after a sequence of processed fixes. -/
def runSession (g : GeoModel) (st : FilterState)
    (events : List (Coords × ℚ)) : FilterState :=
  events.foldl (fun acc e => (processPosition g acc e.1 e.2).1) st

/-- A concrete, computable stand-in for the abstracted geometry, used to
evaluate the pipeline at concrete inputs: axis-wise degree distance scaled by
111000 m/degree (which agrees with the great-circle distance to within the
claims' tolerances at the scales evaluated), and constant cos/sin values. -/
def linDist (lat1 lng1 lat2 lng2 : ℚ) : ℚ :=
  111000 * (|lat2 - lat1| + |lng2 - lng1|)

/-- The concrete evaluation model. -/
def gLin : GeoModel := ⟨linDist, fun _ => 1, fun _ => 0⟩

/-- First scenario fix: (40, -75), accuracy 5 m, speed 2 m/s. -/
def fixA : Coords := ⟨40, -75, 5, some 2, none⟩

/-- Second scenario fix: 0.0001 degrees of latitude north of `fixA`. -/
def fixB : Coords := ⟨40 + 1/10000, -75, 5, none, none⟩

/-- A fix whose accuracy (15 m) exceeds the gate ceiling: always rejected. -/
def fixBad : Coords := ⟨40, -75, 15, none, none⟩

/-- A fix with out-of-range latitude but good accuracy. -/
def fixFar : Coords := ⟨200, 0, 5, none, none⟩

/-- A fix delivering a negative speed reading. -/
def fixNeg : Coords := ⟨40, -75, 5, some (-5), none⟩

/-- A fix with accuracy 50 m: quality score 10/50 = 1/5 from a fresh state. -/
def fixLowQ : Coords := ⟨40, -75, 50, none, none⟩

/-- A filter state whose last accepted fix carries heading 0 (falsy in the
source's truthiness test). -/
def stHeadingZero : FilterState :=
  ⟨some ⟨40, -75, 5, some 1, some 0⟩, 1000, 1, []⟩

/-- The same filter state but with a truthy last heading of 10 degrees. -/
def stHeadingTen : FilterState :=
  ⟨some ⟨40, -75, 5, some 1, some 10⟩, 1000, 1, []⟩

/-- A fix heading 90 degrees: more than 45 degrees away from both 0 and
10. -/
def posTurn : Coords := ⟨40, -75, 5, some 1, some 90⟩

/-- A filter state with two buffered fixes and a last accepted position, for
evaluating the dead-reckoning blend. -/
def stBlend : FilterState :=
  ⟨some ⟨0, 0, 5, none, none⟩, 1000, 0,
   [⟨⟨0, 0, 50, none, none⟩, 1⟩, ⟨⟨10, 20, 50, none, none⟩, 2⟩]⟩

/-- The low-quality fix processed against `stBlend`. -/
def posBlend : Coords := ⟨10, 20, 50, none, none⟩

/-! ### Helper lemmas -/

theorem truthy_speed_iff (x : Option ℚ) :
    (truthy x ∧ MAX_SPEED < orZero x) ↔ ∃ s, x = some s ∧ MAX_SPEED < s := by
  cases x with
  | none => simp [truthy, orZero]
  | some v =>
    simp only [truthy, orZero, Option.getD_some]
    constructor
    · rintro ⟨h, hv⟩
      exact ⟨v, rfl, hv⟩
    · rintro ⟨s, hs, hv⟩
      obtain rfl : s = v := by injection hs with h; exact h.symm
      refine ⟨⟨by simp, ?_⟩, hv⟩
      intro hc
      injection hc with hc0
      rw [hc0] at hv
      norm_num [MAX_SPEED] at hv

theorem analyzeSignalQuality_eq (st : FilterState) (position : Coords) :
    analyzeSignalQuality st position =
      accuracyFactor position * speedFactor st position *
        headingFactor st position := by
  unfold analyzeSignalQuality accuracyFactor speedFactor headingFactor
  cases st.lastValidPosition with
  | none => dsimp only; split_ifs <;> ring
  | some lp => dsimp only; split_ifs <;> ring

theorem speedFactor_cases (st : FilterState) (position : Coords) :
    speedFactor st position = 1/2 ∨ speedFactor st position = 1 := by
  unfold speedFactor
  split_ifs
  · exact Or.inl rfl
  · exact Or.inr rfl

theorem headingFactor_cases (st : FilterState) (position : Coords) :
    headingFactor st position = 7/10 ∨ headingFactor st position = 1 := by
  unfold headingFactor
  cases st.lastValidPosition with
  | none => exact Or.inr rfl
  | some lp =>
    dsimp only
    split_ifs
    · exact Or.inl rfl
    · exact Or.inr rfl

theorem score_ge_of_accuracy_le (st : FilterState) (position : Coords)
    (h : position.accuracy ≤ MIN_ACCURACY) :
    3/10 ≤ analyzeSignalQuality st position := by
  rw [analyzeSignalQuality_eq]
  have ha : accuracyFactor position = 1 := by
    unfold accuracyFactor
    rw [if_neg (not_lt.mpr h)]
  rw [ha, one_mul]
  rcases speedFactor_cases st position with hs | hs <;>
    rcases headingFactor_cases st position with hh | hh <;>
      rw [hs, hh] <;> norm_num

theorem pushBuffer_reverse (buf : List BufferEntry) (e : BufferEntry) :
    ∃ rest, (pushBuffer buf e).reverse = e :: rest := by
  unfold pushBuffer
  dsimp only
  split_ifs with h
  · cases buf with
    | nil => simp [bufferSize] at h
    | cons a t =>
      refine ⟨t.reverse, ?_⟩
      simp
  · exact ⟨buf.reverse, by simp⟩

theorem pushBuffer_length_le (buf : List BufferEntry) (e : BufferEntry)
    (h : buf.length ≤ 5) : (pushBuffer buf e).length ≤ 5 := by
  unfold pushBuffer
  dsimp only
  split_ifs with hb
  · simpa using h
  · simp only [bufferSize, not_lt, List.length_append, List.length_cons] at hb ⊢
    omega

theorem predictNextPosition_eq_none (st : FilterState)
    (h : st.positionBuffer.length < 2) : predictNextPosition st = none := by
  unfold predictNextPosition
  cases hr : st.positionBuffer.reverse with
  | nil => rfl
  | cons a t =>
    cases t with
    | nil => rfl
    | cons b r =>
      exfalso
      have hlen := congrArg List.length hr
      simp at hlen
      omega

theorem correctedPosition_fields (g : GeoModel) (st : FilterState)
    (position : Coords) (timeDelta : ℚ) (e : BufferEntry)
    (rest : List BufferEntry) (hbuf : st.positionBuffer.reverse = e :: rest)
    (hpos : e.pos = position) :
    (correctedPosition g st position timeDelta).accuracy = position.accuracy ∧
    (correctedPosition g st position timeDelta).speed = position.speed ∧
    (correctedPosition g st position timeDelta).heading = position.heading := by
  unfold correctedPosition
  split_ifs with hq
  · cases hr2 : rest with
    | nil =>
      have hn : predictNextPosition st = none := by
        unfold predictNextPosition
        rw [hbuf, hr2]
      rw [hn]
      exact ⟨rfl, rfl, rfl⟩
    | cons e2 r2 =>
      have hp : predictNextPosition st = some { e.pos with
          latitude := e.pos.latitude + (e.pos.latitude - e2.pos.latitude)
          longitude := e.pos.longitude + (e.pos.longitude - e2.pos.longitude) } := by
        unfold predictNextPosition
        rw [hbuf, hr2]
      rw [hp]
      unfold deadReckoning
      cases st.lastValidPosition with
      | none => subst hpos; exact ⟨rfl, rfl, rfl⟩
      | some lp => subst hpos; exact ⟨rfl, rfl, rfl⟩
  · exact ⟨rfl, rfl, rfl⟩

theorem processPosition_cases (g : GeoModel) (st : FilterState)
    (position : Coords) (currentTime : ℚ) :
    (isValidPosition g (pushState st position currentTime)
        (correctedPosition g (pushState st position currentTime) position
          (timeDeltaOf st currentTime)) (timeDeltaOf st currentTime) = false ∧
     processPosition g st position currentTime =
       (pushState st position currentTime, none)) ∨
    ∃ p, p = correctedPosition g (pushState st position currentTime) position
        (timeDeltaOf st currentTime) ∧
      isValidPosition g (pushState st position currentTime) p
        (timeDeltaOf st currentTime) = true ∧
      processPosition g st position currentTime =
        ({ pushState st position currentTime with
            lastValidPosition := some p
            lastUpdateTime := currentTime
            lastSpeed := orZero p.speed }, some p) := by
  unfold processPosition
  dsimp only
  split_ifs with hv
  · exact Or.inr ⟨_, rfl, hv, rfl⟩
  · simp only [Bool.not_eq_true] at hv
    exact Or.inl ⟨hv, rfl⟩

theorem processPosition_buffer (g : GeoModel) (st : FilterState)
    (position : Coords) (currentTime : ℚ) :
    (processPosition g st position currentTime).1.positionBuffer =
      pushBuffer st.positionBuffer ⟨position, currentTime⟩ := by
  rcases processPosition_cases g st position currentTime with ⟨hv, hc⟩ | ⟨p, hp, hv, hc⟩ <;>
    rw [hc] <;> rfl

theorem processPosition_rejected (g : GeoModel) (st : FilterState)
    (position : Coords) (currentTime : ℚ)
    (h : (processPosition g st position currentTime).2 = none) :
    (processPosition g st position currentTime).1 =
      pushState st position currentTime := by
  rcases processPosition_cases g st position currentTime with ⟨hv, hc⟩ | ⟨p, hp, hv, hc⟩
  · rw [hc]
  · rw [hc] at h
    exact absurd h (by simp)

theorem processPosition_accepted (g : GeoModel) (st : FilterState)
    (position : Coords) (currentTime : ℚ) (p : Coords)
    (h : (processPosition g st position currentTime).2 = some p) :
    (processPosition g st position currentTime).1.lastValidPosition = some p ∧
    (processPosition g st position currentTime).1.lastUpdateTime = currentTime ∧
    (processPosition g st position currentTime).1.lastSpeed = orZero p.speed := by
  rcases processPosition_cases g st position currentTime with ⟨hv, hc⟩ | ⟨q, hq, hv, hc⟩
  · rw [hc] at h
    exact absurd h (by simp)
  · rw [hc] at h
    simp only at h
    injection h with h2
    subst h2
    rw [hc]
    exact ⟨rfl, rfl, rfl⟩

theorem processPosition_output_fields (g : GeoModel) (st : FilterState)
    (position : Coords) (currentTime : ℚ) (p : Coords)
    (h : (processPosition g st position currentTime).2 = some p) :
    p.accuracy = position.accuracy ∧ p.speed = position.speed ∧
    p.heading = position.heading := by
  obtain ⟨rest, hrev⟩ := pushBuffer_reverse st.positionBuffer ⟨position, currentTime⟩
  have hfields := correctedPosition_fields g (pushState st position currentTime)
    position (timeDeltaOf st currentTime) ⟨position, currentTime⟩ rest hrev rfl
  rcases processPosition_cases g st position currentTime with ⟨hv, hc⟩ | ⟨q, hq, hv, hc⟩
  · rw [hc] at h
    exact absurd h (by simp)
  · rw [hc] at h
    simp only at h
    injection h with h2
    subst h2
    rw [← hq] at hfields
    exact hfields

theorem isValidPosition_false_of_accuracy (g : GeoModel) (st : FilterState)
    (position : Coords) (timeDelta : ℚ)
    (h : MIN_ACCURACY < position.accuracy) :
    isValidPosition g st position timeDelta = false := by
  unfold isValidPosition
  rw [if_pos h]

theorem foldl_pushBuffer (es : List BufferEntry) :
    ∀ buf : List BufferEntry, buf.length ≤ 5 →
      es.foldl pushBuffer buf = (buf ++ es).drop ((buf ++ es).length - 5) := by
  induction es with
  | nil =>
    intro buf h
    rw [List.foldl_nil, List.append_nil, Nat.sub_eq_zero_of_le h, List.drop_zero]
  | cons e es ih =>
    intro buf h
    rw [List.foldl_cons, ih (pushBuffer buf e) (pushBuffer_length_le buf e h)]
    unfold pushBuffer
    dsimp only
    split_ifs with hb
    · have h1 : 1 ≤ (buf ++ [e]).length := by simp
      rw [← List.drop_append_of_le_length h1, List.drop_drop,
        List.append_cons buf e es]
      congr 1
      simp only [bufferSize, List.length_append, List.length_cons,
        List.length_drop, List.length_nil] at hb ⊢
      omega
    · rw [List.append_cons buf e es]

theorem runSession_buffer (g : GeoModel) (events : List (Coords × ℚ)) :
    ∀ st : FilterState, (runSession g st events).positionBuffer =
      (events.map fun e => (⟨e.1, e.2⟩ : BufferEntry)).foldl pushBuffer
        st.positionBuffer := by
  induction events with
  | nil => intro st; rfl
  | cons e es ih =>
    intro st
    show (runSession g ((processPosition g st e.1 e.2).1) es).positionBuffer = _
    rw [ih, processPosition_buffer, List.map_cons, List.foldl_cons]

theorem watchHandler_distance (g : GeoModel) (s : FilterState × UiState)
    (pos : Coords) (t : ℚ) :
    (watchHandler g s pos t).2.distance = s.2.distance := by
  unfold watchHandler
  dsimp only
  cases (processPosition g s.1 pos t).2 with
  | none => rfl
  | some p => rfl

theorem runWatch_distance (g : GeoModel) (events : List (Coords × ℚ)) :
    ∀ s : FilterState × UiState,
      (runWatch g s events).2.distance = s.2.distance := by
  induction events with
  | nil => intro s; rfl
  | cons e es ih =>
    intro s
    show (runWatch g (watchHandler g s e.1 e.2) es).2.distance = _
    rw [ih, watchHandler_distance]

/-! ### Claims -/

/-- C2 (amended): processing a rejected fix leaves `lastValidPosition`,
`lastUpdateTime`, `lastSpeed` and the exported track unchanged, but the raw
fix is nevertheless recorded in the position history buffer (the push happens
before any validation). -/
theorem c2_rejection_effect (g : GeoModel) (st : FilterState) (pos : Coords)
    (t : ℚ) (h : (processPosition g st pos t).2 = none) :
    (processPosition g st pos t).1.lastValidPosition = st.lastValidPosition ∧
    (processPosition g st pos t).1.lastUpdateTime = st.lastUpdateTime ∧
    (processPosition g st pos t).1.lastSpeed = st.lastSpeed ∧
    (processPosition g st pos t).1.positionBuffer =
      pushBuffer st.positionBuffer ⟨pos, t⟩ ∧
    ∀ ui, (watchHandler g (st, ui) pos t).2 = ui := by
  have hst := processPosition_rejected g st pos t h
  refine ⟨by rw [hst]; rfl, by rw [hst]; rfl, by rw [hst]; rfl,
    by rw [hst]; rfl, ?_⟩
  intro ui
  unfold watchHandler
  dsimp only
  rw [h]

/-- C3: the plausibility gate returns false iff the accuracy exceeds 10 m, or
a speed reading is present and exceeds 20 m/s, or a last accepted position
exists and the distance to it is below 0.5 m, or a last accepted position
exists and the speed change exceeds 10 times the elapsed seconds; and on
acceptance `processPosition` updates `lastValidPosition`, `lastUpdateTime`
and `lastSpeed` to the accepted fix's values. -/
theorem c3_plausibility_gate (g : GeoModel) (st : FilterState) (pos : Coords)
    (dt t : ℚ) :
    (isValidPosition g st pos dt = false ↔
      MIN_ACCURACY < pos.accuracy ∨
      (∃ s, pos.speed = some s ∧ MAX_SPEED < s) ∨
      (∃ lp, st.lastValidPosition = some lp ∧
        g.dist lp.latitude lp.longitude pos.latitude pos.longitude <
          MIN_DISTANCE) ∨
      (∃ lp, st.lastValidPosition = some lp ∧
        MAX_ACCELERATION * dt < |orZero pos.speed - st.lastSpeed|)) ∧
    ∀ p, (processPosition g st pos t).2 = some p →
      (processPosition g st pos t).1.lastValidPosition = some p ∧
      (processPosition g st pos t).1.lastUpdateTime = t ∧
      (processPosition g st pos t).1.lastSpeed = orZero p.speed := by
  constructor
  · cases hlp : st.lastValidPosition with
    | none =>
      simp only [isValidPosition, hlp]
      split_ifs with h1 h2
      · simp [h1]
      · simp [(truthy_speed_iff pos.speed).mp h2]
      · rw [truthy_speed_iff] at h2
        simp [h1, h2]
    | some lp =>
      simp only [isValidPosition, hlp]
      split_ifs with h1 h2 h3 h4
      · simp [h1]
      · simp [(truthy_speed_iff pos.speed).mp h2]
      · simp [h3]
      · simp [h4]
      · rw [truthy_speed_iff] at h2
        simp [h1, h2, h3, h4]
  · exact fun p hp => processPosition_accepted g st pos t p hp

/-- C4: a fix whose quality score is below 0.3 is always rejected: such a
score forces an accuracy above 10 m, the dead-reckoning replacement copies
the accuracy unchanged, and the gate's accuracy ceiling then fires. -/
theorem c4_low_quality_rejected (g : GeoModel) (st : FilterState)
    (pos : Coords) (t : ℚ) (h : analyzeSignalQuality st pos < 3/10) :
    (processPosition g st pos t).2 = none := by
  have hacc : MIN_ACCURACY < pos.accuracy := by
    by_contra hc
    exact absurd h (not_lt.mpr (score_ge_of_accuracy_le st pos (not_lt.mp hc)))
  rcases processPosition_cases g st pos t with ⟨hv, hc⟩ | ⟨p, hp, hv, hc⟩
  · rw [hc]
  · exfalso
    obtain ⟨rest, hrev⟩ := pushBuffer_reverse st.positionBuffer ⟨pos, t⟩
    have hfields := correctedPosition_fields g (pushState st pos t) pos
      (timeDeltaOf st t) ⟨pos, t⟩ rest hrev rfl
    rw [← hp] at hfields
    have hfalse := isValidPosition_false_of_accuracy g (pushState st pos t) p
      (timeDeltaOf st t) (by rw [hfields.1]; exact hacc)
    rw [hv] at hfalse
    exact absurd hfalse (by simp)

/-- C5: the dead-reckoning substitution fires only below the 0.3 quality
threshold; with fewer than 2 buffered fixes the fix passes through unchanged;
with at least 2 buffered fixes the predicted fix is the first-difference
extrapolation of the two most recent buffer entries, returned unchanged when
no last accepted position exists, and otherwise blended coordinate-wise with
the constant-velocity estimate using weight 0.3, all other fields copied from
the predicted fix. -/
theorem c5_dead_reckoning_blend (g : GeoModel) (st : FilterState)
    (pos : Coords) (dt : ℚ) :
    (¬ analyzeSignalQuality st pos < 3/10 →
      correctedPosition g st pos dt = pos) ∧
    (analyzeSignalQuality st pos < 3/10 →
      (st.positionBuffer.length < 2 → correctedPosition g st pos dt = pos) ∧
      ∀ e1 e2 rest, st.positionBuffer.reverse = e1 :: e2 :: rest →
        (st.lastValidPosition = none →
          correctedPosition g st pos dt =
            { e1.pos with
              latitude := e1.pos.latitude + (e1.pos.latitude - e2.pos.latitude)
              longitude :=
                e1.pos.longitude + (e1.pos.longitude - e2.pos.longitude) }) ∧
        ∀ lp, st.lastValidPosition = some lp →
          correctedPosition g st pos dt =
            { e1.pos with
              latitude :=
                (e1.pos.latitude + (e1.pos.latitude - e2.pos.latitude)) *
                    (1 - 3/10) +
                  (lp.latitude + st.lastSpeed * g.rcos (orZero lp.heading) * dt) *
                    (3/10)
              longitude :=
                (e1.pos.longitude + (e1.pos.longitude - e2.pos.longitude)) *
                    (1 - 3/10) +
                  (lp.longitude + st.lastSpeed * g.rsin (orZero lp.heading) * dt) *
                    (3/10) }) := by
  constructor
  · intro hq
    unfold correctedPosition
    rw [if_neg hq]
  · intro hq
    constructor
    · intro hlen
      unfold correctedPosition
      rw [if_pos hq, predictNextPosition_eq_none st hlen]
    · intro e1 e2 rest hrev
      have hp : predictNextPosition st = some { e1.pos with
          latitude := e1.pos.latitude + (e1.pos.latitude - e2.pos.latitude)
          longitude := e1.pos.longitude + (e1.pos.longitude - e2.pos.longitude) } := by
        unfold predictNextPosition
        rw [hrev]
      constructor
      · intro hnone
        unfold correctedPosition
        rw [if_pos hq, hp]
        unfold deadReckoning
        rw [hnone]
      · intro lp hlp
        unfold correctedPosition
        rw [if_pos hq, hp]
        unfold deadReckoning
        rw [hlp]
        dsimp only
        simp only [blendPositions, SMOOTHING_FACTOR]

/-- C6 (amended): the coordinate validator rejects any out-of-range latitude
or longitude, but `processPosition` never consults it (the source applies it
only to the initial fix of `startTracking`): from a fresh session state, a
fix with good accuracy and no speed reading is accepted — and mutates the
state — whatever its coordinates. -/
theorem c6_validator_bypassed :
    (∀ lat lng : ℚ, 90 < |lat| ∨ 180 < |lng| →
      isValidCoordinate lat lng = false) ∧
    ∀ (g : GeoModel) (pos : Coords) (t : ℚ),
      pos.accuracy ≤ MIN_ACCURACY → pos.speed = none →
      (processPosition g initState pos t).2 = some pos ∧
      (processPosition g initState pos t).1.lastValidPosition = some pos := by
  constructor
  · intro lat lng hor
    apply decide_eq_false
    rintro ⟨ha, hb, hc, hd⟩
    rcases hor with h | h
    · rcases lt_abs.mp h with h2 | h2 <;> linarith
    · rcases lt_abs.mp h with h2 | h2 <;> linarith
  · intro g pos t hacc hspeed
    have hq : ¬ analyzeSignalQuality (pushState initState pos t) pos < 3/10 :=
      not_lt.mpr (le_trans (by norm_num) (score_ge_of_accuracy_le _ pos hacc))
    have hcorr : correctedPosition g (pushState initState pos t) pos
        (timeDeltaOf initState t) = pos := by
      unfold correctedPosition
      rw [if_neg hq]
    have hval : isValidPosition g (pushState initState pos t) pos
        (timeDeltaOf initState t) = true := by
      unfold isValidPosition
      rw [hspeed, if_neg (not_lt.mpr hacc),
        if_neg (by simp [truthy, orZero] : ¬(truthy (none : Option ℚ) ∧
          MAX_SPEED < orZero (none : Option ℚ)))]
      rfl
    rcases processPosition_cases g initState pos t with ⟨hv, hc⟩ | ⟨p, hp, hv, hc⟩
    · rw [hcorr, hval] at hv
      exact absurd hv (by simp)
    · rw [hcorr] at hp
      subst hp
      rw [hc]
      exact ⟨rfl, rfl⟩

/-- C7: after `startTracking` resets the exported distance to 0, no processed
fix ever changes it: the handler discards the computed distance, so the
exported cumulative distance stays exactly 0 for every event sequence. -/
theorem c7_distance_stays_zero (g : GeoModel) (st : FilterState) (p0 : ℚ × ℚ)
    (events : List (Coords × ℚ)) :
    (runWatch g (st, startUiState p0) events).2.distance = 0 := by
  rw [runWatch_distance]
  rfl

/-- C8 (amended): the 0.7 heading-change attenuation applies when the last
accepted fix's heading is present and nonzero and the heading change exceeds
45 degrees; a stored heading of exactly 0 is falsy in the source's truthiness
test, so the factor is skipped in that case. -/
theorem c8_heading_attenuation (st : FilterState) (pos lp : Coords) (h : ℚ)
    (h1 : st.lastValidPosition = some lp) (h2 : lp.heading = some h)
    (h3 : h ≠ 0) (h4 : 45 < |orZero pos.heading - h|) :
    analyzeSignalQuality st pos =
      accuracyFactor pos * speedFactor st pos * (7/10) := by
  rw [analyzeSignalQuality_eq]
  congr 1
  unfold headingFactor
  rw [h1]
  dsimp only
  rw [if_pos ⟨⟨by simp [h2], by simp [h2, h3]⟩,
    by rw [h2]; exact h4⟩]

/-- C9 (amended): `lastSpeed` starts at 0 and, provided every delivered speed
reading is nonnegative when present, stays nonnegative after every processed
fix (0 is substituted for an absent reading); a negative delivered reading
would be stored as-is. -/
theorem c9_lastSpeed_nonneg :
    initState.lastSpeed = 0 ∧
    ∀ (g : GeoModel) (st : FilterState) (pos : Coords) (t : ℚ),
      0 ≤ st.lastSpeed → (∀ s, pos.speed = some s → 0 ≤ s) →
      0 ≤ (processPosition g st pos t).1.lastSpeed := by
  refine ⟨rfl, ?_⟩
  intro g st pos t hst hpos
  cases hr : (processPosition g st pos t).2 with
  | none =>
    rw [processPosition_rejected g st pos t hr]
    exact hst
  | some p =>
    have hupd := processPosition_accepted g st pos t p hr
    rw [hupd.2.2]
    have hfields := processPosition_output_fields g st pos t p hr
    rw [hfields.2.1]
    cases hs : pos.speed with
    | none => simp [orZero]
    | some s => simpa [orZero] using hpos s hs

/-- C10: the history buffer caps at 5 entries: each `processPosition` call
pushes the raw fix and evicts exactly the oldest entry on overflow, so after
any sequence of processed fixes the buffer holds the most recent at-most-5
fixes in arrival order. -/
theorem c10_buffer_bound (g : GeoModel) (events : List (Coords × ℚ)) :
    (runSession g initState events).positionBuffer =
      (events.map fun e => (⟨e.1, e.2⟩ : BufferEntry)).drop
        (events.length - 5) ∧
    (runSession g initState events).positionBuffer.length ≤ 5 ∧
    ∀ (st : FilterState) (pos : Coords) (t : ℚ),
      (processPosition g st pos t).1.positionBuffer =
        pushBuffer st.positionBuffer ⟨pos, t⟩ := by
  have h1 := runSession_buffer g events initState
  rw [foldl_pushBuffer _ _ (by decide)] at h1
  rw [show initState.positionBuffer = ([] : List BufferEntry) from rfl] at h1
  simp only [List.nil_append, List.length_map] at h1
  refine ⟨h1, ?_, fun st pos t => processPosition_buffer g st pos t⟩
  rw [h1]
  simp only [List.length_drop, List.length_map]
  omega

/-! ### Concrete evaluations

The rational arithmetic of the Batteries library is marked irreducible for
elaboration; inside this section it is restored to its definitional
behaviour so that `decide` can evaluate the pipeline on concrete fixes. -/

section ConcreteEvaluation

attribute [local semireducible] Rat.add Rat.mul Rat.inv Rat.sub

/-- C1: evaluation at the failing input.  Running the watch handler over the
scenario fixes (the second accepted fix 0.0001 degrees of latitude north of
the first) extends the polyline, yet the exported cumulative distance stays
0 even though the distance between the last consecutive pair is 11.1 m in
the evaluation geometry: the handler discards the computed distance, so the
total is never the sum of consecutive great-circle distances. -/
theorem c1_distance_discarded :
    (runWatch gLin (initState, startUiState (40, -75))
        [(fixA, 1000), (fixB, 2000)]).2.positions =
      [(40, -75), (40, -75), (40 + 1/10000, -75)] ∧
    (runWatch gLin (initState, startUiState (40, -75))
        [(fixA, 1000), (fixB, 2000)]).2.distance = 0 ∧
    linDist 40 (-75) (40 + 1/10000) (-75) = 111/10 := by decide

/-- C2 counterexample: processing a rejected fix is not a no-op on the whole
`FilterState` — the history buffer records the fix — and processing the same
rejected fix twice does not equal processing it once. -/
theorem c2_counterexample :
    (processPosition gLin initState fixBad 5).2 = none ∧
    (processPosition gLin initState fixBad 5).1 ≠ initState ∧
    (processPosition gLin (processPosition gLin initState fixBad 5).1
        fixBad 5).1 ≠ (processPosition gLin initState fixBad 5).1 := by decide

/-- C2 witness: a concrete rejected fix leaves `lastSpeed` and the UI state
unchanged. -/
theorem c2_witness :
    (processPosition gLin initState fixBad 5).1.lastSpeed =
      initState.lastSpeed ∧
    (watchHandler gLin (initState, startUiState (40, -75)) fixBad 5).2 =
      startUiState (40, -75) := by
  have h := c2_rejection_effect gLin initState fixBad 5 (by decide)
  exact ⟨h.2.2.1, h.2.2.2.2 (startUiState (40, -75))⟩

/-- C3 witness: the gate rejects a 15 m accuracy fix, and an accepted fix's
speed is stored in `lastSpeed`. -/
theorem c3_witness :
    isValidPosition gLin initState fixBad 0 = false ∧
    (processPosition gLin initState fixA 1000).1.lastSpeed = 2 := by
  refine ⟨(c3_plausibility_gate gLin initState fixBad 0 0).1.mpr
    (Or.inl (by decide)), ?_⟩
  have h := ((c3_plausibility_gate gLin initState fixA 0 1000).2 fixA
    (by decide)).2.2
  rw [h]
  decide

/-- C4 witness: the spec's accuracy-50 scenario scores 1/5 and is rejected. -/
theorem c4_witness :
    analyzeSignalQuality initState fixLowQ < 3/10 ∧
    (processPosition gLin initState fixLowQ 5).2 = none :=
  ⟨by decide, c4_low_quality_rejected gLin initState fixLowQ 5 (by decide)⟩

/-- C5 witness: the dead-reckoning blend evaluated at a concrete state with
two buffered fixes and a last accepted position. -/
theorem c5_witness :
    correctedPosition gLin stBlend posBlend 1 = ⟨14, 28, 50, none, none⟩ := by
  have h := (((c5_dead_reckoning_blend gLin stBlend posBlend 1).2
      (by decide)).2 ⟨⟨10, 20, 50, none, none⟩, 2⟩ ⟨⟨0, 0, 50, none, none⟩, 1⟩
      [] (by decide)).2 ⟨0, 0, 5, none, none⟩ (by decide)
  rw [h]
  decide

/-- C6 counterexample: a fix with latitude 200 fails the coordinate
validator, yet the pipeline accepts it, stores it as the last valid position
and appends it to the track. -/
theorem c6_counterexample :
    isValidCoordinate 200 0 = false ∧
    (processPosition gLin initState fixFar 5).2 = some fixFar ∧
    (processPosition gLin initState fixFar 5).1.lastValidPosition =
      some fixFar ∧
    (watchHandler gLin (initState, startUiState (40, -75)) fixFar 5).2.positions =
      [(40, -75), (200, 0)] := by decide

/-- C6 witness: the amended theorem applied at latitude 200. -/
theorem c6_witness :
    isValidCoordinate 200 0 = false ∧
    (processPosition gLin initState fixFar 7).2 = some fixFar :=
  ⟨c6_validator_bypassed.1 200 0 (Or.inl (by decide)),
   (c6_validator_bypassed.2 gLin fixFar 7 (by decide) (by decide)).1⟩

/-- C8 counterexample: with a stored heading of exactly 0 and a 90-degree
heading change, the quality score is 1 — the 0.7 factor is not applied. -/
theorem c8_counterexample :
    stHeadingZero.lastValidPosition = some ⟨40, -75, 5, some 1, some 0⟩ ∧
    45 < |orZero posTurn.heading - 0| ∧
    analyzeSignalQuality stHeadingZero posTurn = 1 := by decide

/-- C8 witness: with a stored heading of 10 the same turn scores 7/10. -/
theorem c8_witness :
    analyzeSignalQuality stHeadingTen posTurn = 7/10 := by
  rw [c8_heading_attenuation stHeadingTen posTurn
    ⟨40, -75, 5, some 1, some 10⟩ 10 rfl rfl (by decide) (by decide)]
  decide

/-- C9 counterexample: a delivered speed of -5 m/s is accepted and stored in
`lastSpeed` as a negative value. -/
theorem c9_counterexample :
    (processPosition gLin initState fixNeg 5).2 = some fixNeg ∧
    (processPosition gLin initState fixNeg 5).1.lastSpeed = -5 := by decide

/-- C9 witness: the nonnegativity invariant applied at a concrete accepted
fix with speed 2. -/
theorem c9_witness : 0 ≤ (processPosition gLin initState fixA 5).1.lastSpeed :=
  c9_lastSpeed_nonneg.2 gLin initState fixA 5 (by decide)
    (by
      intro s hs
      injection hs with h
      rw [← h]
      decide)

end ConcreteEvaluation

end LiveTracker
